import Mathlib

/-!
Shallow embedding, in Lean 4, of the per-session relay layer of the
3cx-translator repository (src/server/gemini_server.py and
src/server/openai_server.py), together with proofs settling the frozen
claims about the natural-language specification of that code.

Conventions of the embedding:
* Python strings are modelled as `List Char`; `str.lower()` is modelled
  by the ASCII case map `pyToLower` (all language codes and protocol
  constants in this code base are ASCII).
* PCM16 sample buffers are modelled as `List ℤ` (one entry per sample);
  raw byte buffers as `List ℕ` (one entry per byte).
* `asyncio` tasks, WebSocket handles and the remote Gemini/OpenAI session
  objects are modelled by `Bool` presence flags; wall-clock timestamps and
  log output are omitted (they influence no control flow that the claims
  touch).
* The external library call `scipy.signal.resample` is out of scope of the
  repository (spec §1 treats libraries and the provider as external
  collaborators); it is modelled at its interface by `signalResample`,
  which keeps exactly the documented properties the code relies on:
  the output has exactly `num` samples, and (the Fourier method being
  linear) the all-zero input maps to the all-zero output.
-/

/-- Convert a Lean string literal to the `List Char` representation used for
Python strings throughout this development. -/
def chars (s : String) : List Char := s.toList

/-! ## Audio resampling (gemini_server.py lines 184–191, openai_server.py
lines 121–127; the two files define the function identically) -/

/-- Model of `numpy` `astype(np.int16)` applied to one sample: wrap into the
signed 16-bit range. Only the value `0` is relied on by the claims. -/
def toInt16 (x : ℤ) : ℤ := (x + 32768) % 65536 - 32768

/-- Interface model of the external `scipy.signal.resample(x, num)` call
(Fourier-method resampling; scipy is outside this repository, spec §1).
The model keeps the two interface facts the server code depends on: the
result has exactly `num` samples, and the map is linear in `x`, so the
all-zero buffer resamples to the all-zero buffer.  Sample values beyond
these facts are not relied on by any claim; the model realises them by
index-mapped selection. -/
def signalResample (x : List ℤ) (num : ℕ) : List ℤ :=
  (List.range num).map (fun i => x.getD (i * x.length / num) 0)

/-- Embedding of `resample_audio(audio, orig_sr, target_sr)`:
`if orig_sr == target_sr: return audio`, otherwise
`num_samples = int(len(audio) * target_sr / orig_sr)` (exact quotient
truncated toward zero, i.e. `ℕ` floor division for these non-negative
quantities) followed by `signal.resample(...).astype(np.int16)`. -/
def resample_audio (audio : List ℤ) (orig_sr target_sr : ℕ) : List ℤ :=
  if orig_sr = target_sr then audio
  else (signalResample audio (audio.length * target_sr / orig_sr)).map toInt16

theorem resample_audio_length (audio : List ℤ) (orig_sr target_sr : ℕ)
    (h : 0 < orig_sr) :
    (resample_audio audio orig_sr target_sr).length =
      audio.length * target_sr / orig_sr := by
  unfold resample_audio
  split
  · next heq => subst heq; exact (Nat.mul_div_cancel audio.length h).symm
  · simp [signalResample]

theorem resample_audio_zero (audio : List ℤ) (orig_sr target_sr : ℕ)
    (hz : ∀ v ∈ audio, v = 0) :
    ∀ v ∈ resample_audio audio orig_sr target_sr, v = 0 := by
  unfold resample_audio
  split
  · exact hz
  · intro v hv
    simp only [signalResample, List.map_map, List.mem_map, List.mem_range] at hv
    obtain ⟨i, -, hvi⟩ := hv
    subst hvi
    simp only [Function.comp_apply]
    rcases Nat.lt_or_ge (i * audio.length / (audio.length * target_sr / orig_sr)) audio.length with hlt | hge
    · rw [List.getD_eq_getElem _ _ hlt, hz _ (audio.getElem_mem hlt)]
      rfl
    · rw [List.getD_eq_default _ _ hge]
      rfl

/-! ## Language-code normalization (gemini_server.py lines 102–143) -/

/-- The ASCII uppercase-to-lowercase table realising what Python
`str.lower()` does on the (ASCII) language codes handled by the server. -/
def upperLowerTable : List (Char × Char) :=
  [('A', 'a'), ('B', 'b'), ('C', 'c'), ('D', 'd'), ('E', 'e'), ('F', 'f'),
   ('G', 'g'), ('H', 'h'), ('I', 'i'), ('J', 'j'), ('K', 'k'), ('L', 'l'),
   ('M', 'm'), ('N', 'n'), ('O', 'o'), ('P', 'p'), ('Q', 'q'), ('R', 'r'),
   ('S', 's'), ('T', 't'), ('U', 'u'), ('V', 'v'), ('W', 'w'), ('X', 'x'),
   ('Y', 'y'), ('Z', 'z')]

/-- ASCII case map of one character: model of what Python `str.lower()` does
to each character of the (ASCII) language codes handled by the server. -/
def pyToLower (c : Char) : Char :=
  match upperLowerTable.find? (fun p => p.1 == c) with
  | some p => p.2
  | none => c

/-- Model of Python `code.lower()` on the `List Char` representation. -/
def pyLower (s : List Char) : List Char := s.map pyToLower

/-- The lowercase ASCII letters, used to characterise `pyToLower`. -/
def lowerChars : List Char :=
  ['a', 'b', 'c', 'd', 'e', 'f', 'g', 'h', 'i', 'j', 'k', 'l', 'm',
   'n', 'o', 'p', 'q', 'r', 's', 't', 'u', 'v', 'w', 'x', 'y', 'z']

theorem pyToLower_spec (c : Char) :
    pyToLower c ∈ lowerChars ∨ pyToLower c = c := by
  unfold pyToLower
  cases h : upperLowerTable.find? (fun p => p.1 == c) with
  | none => right; rfl
  | some p =>
      left
      show p.2 ∈ lowerChars
      have hp : p ∈ upperLowerTable := List.mem_of_find?_eq_some h
      clear h
      revert p
      decide

theorem pyToLower_fixed_of_lower (c : Char)
    (h : c ∈ lowerChars) : pyToLower c = c := by
  fin_cases h <;> rfl

theorem pyToLower_idem (c : Char) : pyToLower (pyToLower c) = pyToLower c := by
  rcases pyToLower_spec c with h | h
  · exact pyToLower_fixed_of_lower _ h
  · rw [h, h]

theorem pyToLower_eq_dash_iff (c : Char) : pyToLower c = '-' ↔ c = '-' := by
  constructor
  · intro hd
    rcases pyToLower_spec c with h | h
    · rw [hd] at h
      exact absurd h (by decide)
    · rw [← h]
      exact hd
  · intro hd
    subst hd
    rfl

theorem pyToLower_eq_underscore_iff (c : Char) : pyToLower c = '_' ↔ c = '_' := by
  constructor
  · intro hd
    rcases pyToLower_spec c with h | h
    · rw [hd] at h
      exact absurd h (by decide)
    · rw [← h]
      exact hd
  · intro hd
    subst hd
    rfl

theorem pyToLower_bne_dash (c : Char) : (pyToLower c != '-') = (c != '-') := by
  rw [Bool.eq_iff_iff]
  simp only [bne_iff_ne, ne_eq]
  exact not_congr (pyToLower_eq_dash_iff c)

theorem pyToLower_bne_underscore (c : Char) :
    (pyToLower c != '_') = (c != '_') := by
  rw [Bool.eq_iff_iff]
  simp only [bne_iff_ne, ne_eq]
  exact not_congr (pyToLower_eq_underscore_iff c)

theorem pyLower_idem (l : List Char) : pyLower (pyLower l) = pyLower l := by
  simp only [pyLower, List.map_map]
  exact List.map_congr_left (fun c _ => pyToLower_idem c)

theorem takeWhile_pyLower (p : Char → Bool) (hp : ∀ c, p (pyToLower c) = p c) :
    ∀ l : List Char, (pyLower l).takeWhile p = pyLower (l.takeWhile p) := by
  intro l
  induction l with
  | nil => rfl
  | cons c cs ih =>
      simp only [pyLower] at ih ⊢
      simp only [List.map_cons, List.takeWhile_cons, hp]
      cases hpc : p c with
      | false => simp [hpc]
      | true => simp [hpc, ih]

/-- Model of Python `code.split('-')[0].split('_')[0]`: the prefix of the
code before the first `'-'` or `'_'`. -/
def primarySubtag (code : List Char) : List Char :=
  (code.takeWhile (· != '-')).takeWhile (· != '_')

theorem primarySubtag_pyLower (code : List Char) :
    primarySubtag (pyLower code) = pyLower (primarySubtag code) := by
  unfold primarySubtag
  rw [takeWhile_pyLower _ pyToLower_bne_dash,
    takeWhile_pyLower _ pyToLower_bne_underscore]

/-- Embedding of the `GEMINI_LANG_CODES` table (gemini_server.py lines
104–110), in source order. -/
def geminiLangCodes : List (List Char × List Char) :=
  [(chars "de", chars "de"), (chars "german", chars "de"),
   (chars "deu", chars "de"), (chars "de-de", chars "de"),
   (chars "de-at", chars "de"), (chars "de-ch", chars "de"),
   (chars "es", chars "es"), (chars "spanish", chars "es"),
   (chars "spa", chars "es"), (chars "es-es", chars "es"),
   (chars "es-mx", chars "es"), (chars "es-ar", chars "es"),
   (chars "en", chars "en"), (chars "english", chars "en"),
   (chars "eng", chars "en"), (chars "en-us", chars "en"),
   (chars "en-gb", chars "en"), (chars "en-au", chars "en"),
   (chars "fr", chars "fr"), (chars "french", chars "fr"),
   (chars "fra", chars "fr"), (chars "fr-fr", chars "fr"),
   (chars "fr-ca", chars "fr"), (chars "fr-be", chars "fr"),
   (chars "it", chars "it"), (chars "italian", chars "it"),
   (chars "ita", chars "it"), (chars "it-it", chars "it"),
   (chars "it-ch", chars "it")]

/-- Python `dict` membership test and access (`code_lower in GEMINI_LANG_CODES`
followed by `GEMINI_LANG_CODES[code_lower]`), on the association-list
rendering of the dict (keys are distinct, so order is irrelevant). -/
def lookupCode (k : List Char) : List (List Char × List Char) → Option (List Char)
  | [] => none
  | p :: rest => if k = p.1 then some p.2 else lookupCode k rest

/-- Embedding of `SUPPORTED_LANGUAGES` (gemini_server.py line 120,
openai_server.py line 114). -/
def supportedLanguages : List (List Char) :=
  [chars "de", chars "es", chars "en", chars "fr", chars "it"]

/-- Embedding of `normalize_language_code(code)` (gemini_server.py lines
123–143): return falsy or `"auto"` input unchanged; else look the lowercased
code up in `GEMINI_LANG_CODES`; else lowercase the primary subtag. -/
def normalize_language_code (code : List Char) : List Char :=
  if code = [] ∨ code = chars "auto" then code
  else
    match lookupCode (pyLower code) geminiLangCodes with
    | some v => v
    | none => pyLower (primarySubtag code)

/-- The keys of `GEMINI_LANG_CODES` that are not fixed points of the map:
full language names and ISO 639-2 three-letter codes. -/
def aliasCodes : List (List Char) :=
  [chars "german", chars "deu", chars "spanish", chars "spa",
   chars "english", chars "eng", chars "french", chars "fra",
   chars "italian", chars "ita"]

theorem lookupCode_mem {k v : List Char} :
    ∀ {l : List (List Char × List Char)}, lookupCode k l = some v → (k, v) ∈ l := by
  intro l
  induction l with
  | nil => intro h; exact absurd h (by simp [lookupCode])
  | cons p rest ih =>
      intro h
      rw [lookupCode] at h
      split at h
      · next heq =>
          obtain rfl := heq
          obtain rfl : p.2 = v := by injection h
          exact List.mem_cons_self _ _
      · exact List.mem_cons_of_mem _ (ih h)

theorem geminiLangCodes_sep_val :
    ∀ p ∈ geminiLangCodes, ('-' ∈ p.1 ∨ '_' ∈ p.1) → p.2 = primarySubtag p.1 := by
  decide

theorem geminiLangCodes_val_fixed :
    ∀ p ∈ geminiLangCodes, normalize_language_code p.2 = p.2 := by
  decide

theorem geminiLangCodes_nosep :
    ∀ p ∈ geminiLangCodes, ('-' ∉ p.1 ∧ '_' ∉ p.1) →
      p.1 ∈ aliasCodes ∨ p.2 = p.1 := by
  decide

theorem normalize_sep (code : List Char) (h : '-' ∈ code ∨ '_' ∈ code) :
    normalize_language_code code = pyLower (primarySubtag code) := by
  have hne : ¬(code = [] ∨ code = chars "auto") := by
    rintro (rfl | rfl)
    · rcases h with h | h <;> exact absurd h (List.not_mem_nil _)
    · rcases h with h | h <;> exact absurd h (by decide)
  rw [normalize_language_code, if_neg hne]
  cases hl : lookupCode (pyLower code) geminiLangCodes with
  | none => rfl
  | some v =>
      have hmem : (pyLower code, v) ∈ geminiLangCodes := lookupCode_mem hl
      have hsep : '-' ∈ pyLower code ∨ '_' ∈ pyLower code := by
        rcases h with h | h
        · exact Or.inl (List.mem_map.mpr ⟨'-', h, rfl⟩)
        · exact Or.inr (List.mem_map.mpr ⟨'_', h, rfl⟩)
      have hv : v = primarySubtag (pyLower code) :=
        geminiLangCodes_sep_val _ hmem hsep
      show v = pyLower (primarySubtag code)
      rw [hv, primarySubtag_pyLower]

theorem dash_of_mem_pyLower {x : List Char} (h : '-' ∈ pyLower x) : '-' ∈ x := by
  obtain ⟨c, hc, he⟩ := List.mem_map.mp h
  rwa [(pyToLower_eq_dash_iff c).mp he] at hc

theorem underscore_of_mem_pyLower {x : List Char} (h : '_' ∈ pyLower x) :
    '_' ∈ x := by
  obtain ⟨c, hc, he⟩ := List.mem_map.mp h
  rwa [(pyToLower_eq_underscore_iff c).mp he] at hc

theorem not_mem_primarySubtag_dash (code : List Char) :
    '-' ∉ primarySubtag code := by
  intro h
  have h1 : '-' ∈ code.takeWhile (· != '-') :=
    (List.takeWhile_sublist _).subset h
  have h2 := List.mem_takeWhile_imp h1
  simp at h2

theorem not_mem_primarySubtag_underscore (code : List Char) :
    '_' ∉ primarySubtag code := by
  intro h
  have h2 := List.mem_takeWhile_imp h
  simp at h2

theorem takeWhile_all (p : Char → Bool) :
    ∀ l : List Char, (∀ c ∈ l, p c = true) → l.takeWhile p = l := by
  intro l
  induction l with
  | nil => intro _; rfl
  | cons c cs ih =>
      intro h
      have hc := h c (List.mem_cons_self _ _)
      simp [List.takeWhile_cons, hc,
        ih (fun d hd => h d (List.mem_cons_of_mem _ hd))]

theorem primarySubtag_fixed {r : List Char} (hd : '-' ∉ r) (hu : '_' ∉ r) :
    primarySubtag r = r := by
  unfold primarySubtag
  rw [takeWhile_all _ r (fun c hc => bne_iff_ne.mpr (fun e => hd (by rwa [e] at hc))),
    takeWhile_all _ r (fun c hc => bne_iff_ne.mpr (fun e => hu (by rwa [e] at hc)))]

theorem normalize_code_idem (code : List Char)
    (h : normalize_language_code code ∉ aliasCodes) :
    normalize_language_code (normalize_language_code code) =
      normalize_language_code code := by
  by_cases h0 : code = [] ∨ code = chars "auto"
  · have he : normalize_language_code code = code := by
      rw [normalize_language_code, if_pos h0]
    rcases h0 with rfl | rfl
    · rw [he]
      rw [he]
    · rw [he]
      rw [he]
  · have hmain : normalize_language_code code =
        match lookupCode (pyLower code) geminiLangCodes with
        | some v => v
        | none => pyLower (primarySubtag code) := by
      rw [normalize_language_code, if_neg h0]
    cases hl : lookupCode (pyLower code) geminiLangCodes with
    | some v =>
        have hv : normalize_language_code code = v := by rw [hmain, hl]
        rw [hv]
        exact geminiLangCodes_val_fixed _ (lookupCode_mem hl)
    | none =>
        have hv : normalize_language_code code = pyLower (primarySubtag code) := by
          rw [hmain, hl]
        rw [hv] at h ⊢
        have hdr : '-' ∉ pyLower (primarySubtag code) :=
          fun hm => not_mem_primarySubtag_dash code (dash_of_mem_pyLower hm)
        have hur : '_' ∉ pyLower (primarySubtag code) :=
          fun hm => not_mem_primarySubtag_underscore code (underscore_of_mem_pyLower hm)
        have hlow : pyLower (pyLower (primarySubtag code)) =
            pyLower (primarySubtag code) := pyLower_idem _
        by_cases h0r : pyLower (primarySubtag code) = [] ∨
            pyLower (primarySubtag code) = chars "auto"
        · rw [normalize_language_code, if_pos h0r]
        · rw [normalize_language_code, if_neg h0r, hlow]
          cases hlr : lookupCode (pyLower (primarySubtag code)) geminiLangCodes with
          | some w =>
              have hmem := lookupCode_mem hlr
              rcases geminiLangCodes_nosep _ hmem ⟨hdr, hur⟩ with hin | heq
              · exact absurd hin h
              · show w = pyLower (primarySubtag code)
                exact heq
          | none =>
              show pyLower (primarySubtag (pyLower (primarySubtag code))) =
                pyLower (primarySubtag code)
              rw [primarySubtag_fixed hdr hur, hlow]

theorem takeWhile_append_stop (p : Char → Bool) (a : Char) (hpa : p a = false) :
    ∀ l1 l2 : List Char, (∀ c ∈ l1, p c = true) →
      (l1 ++ a :: l2).takeWhile p = l1 := by
  intro l1 l2 h
  induction l1 with
  | nil => simp [List.takeWhile_cons, hpa]
  | cons c cs ih =>
      have hc := h c (List.mem_cons_self _ _)
      simp [List.takeWhile_cons, hc,
        ih (fun d hd => h d (List.mem_cons_of_mem _ hd))]

theorem normalize_supported_region (lang : List Char)
    (hl : lang ∈ supportedLanguages) (suffix : List Char) :
    normalize_language_code (lang ++ '-' :: suffix) = lang := by
  have hsep : '-' ∈ lang ++ '-' :: suffix :=
    List.mem_append.mpr (Or.inr (List.mem_cons_self _ _))
  have hno : ∀ c ∈ lang, (c != '-') = true := by fin_cases hl <;> decide
  have h2 : lang.takeWhile (· != '_') = lang := by fin_cases hl <;> decide
  have h3 : pyLower lang = lang := by fin_cases hl <;> decide
  rw [normalize_sep _ (Or.inl hsep)]
  unfold primarySubtag
  rw [takeWhile_append_stop _ '-' (by decide) lang suffix hno, h2, h3]

/-! ## Claims C6, C9, C10 -/

/-- C9: for every input buffer (any length, any sample values), when the
input rate equals the output rate, `resample_audio` is the identity: it
returns the input unchanged.  (Both servers define the function with the
same `if orig_sr == target_sr: return audio` short-circuit.) -/
theorem C9_resample_identity :
    ∀ (audio : List ℤ) (sr : ℕ), resample_audio audio sr sr = audio := by
  intro audio sr
  simp [resample_audio]

/-- C6 counterexample: the claim says the output length is
`round(N * R_out / R_in)`, but at `N = 1`, `R_in = 16000`, `R_out = 24000`
the code truncates `int(1 * 24000 / 16000) = int(1.5) = 1`, while rounding
`1.5` gives `2`. -/
theorem C6_counterexample :
    (resample_audio [0] 16000 24000).length = 1 ∧
    round ((1 * 24000 : ℚ) / 16000) = 2 ∧ (1 : ℕ) ≠ 2 := by
  refine ⟨by decide, ?_, by decide⟩
  norm_num [round_eq]

/-- C6 (amended): for every PCM16 buffer and positive rates, the length of
`resample_audio`'s output is `⌊N * R_out / R_in⌋` — the Python
`int(len(audio) * target_sr / orig_sr)` truncation, not `round` — and
resampling an all-zero buffer yields an all-zero buffer of that length. -/
theorem C6_resample_length_and_zero (audio : List ℤ) (orig_sr target_sr : ℕ)
    (h1 : 0 < orig_sr) (h2 : 0 < target_sr) :
    (resample_audio audio orig_sr target_sr).length =
        audio.length * target_sr / orig_sr ∧
      ((∀ v ∈ audio, v = 0) →
        ∀ v ∈ resample_audio audio orig_sr target_sr, v = 0) :=
  ⟨resample_audio_length audio orig_sr target_sr h1,
   fun hz => resample_audio_zero audio orig_sr target_sr hz⟩

/-- Witness for C6: two zero samples resampled from 16 kHz to 24 kHz give
`⌊2·24000/16000⌋ = 3` zero samples. -/
theorem C6_witness :
    (resample_audio [0, 0] 16000 24000).length = [0, 0].length * 24000 / 16000 ∧
    (∀ v ∈ resample_audio ([0, 0] : List ℤ) 16000 24000, v = 0) :=
  ⟨(C6_resample_length_and_zero [0, 0] 16000 24000 (by decide) (by decide)).1,
   (C6_resample_length_and_zero [0, 0] 16000 24000 (by decide) (by decide)).2
     (by decide)⟩

/-- C10 counterexample: `normalize_language_code` is not idempotent.
`"deu-DE"` (a region-suffixed ISO 639-2 alias) normalizes to `"deu"`,
whose own normalization is `"de"`: normalizing twice differs from
normalizing once. -/
theorem C10_counterexample :
    normalize_language_code (chars "deu-DE") = chars "deu" ∧
    normalize_language_code (normalize_language_code (chars "deu-DE")) =
      chars "de" ∧
    chars "de" ≠ chars "deu" := by
  decide

/-- C10 (amended): for every code containing a `'-'` or `'_'` region
separator, `normalize_language_code` returns the lowercased primary
subtag; it returns `"auto"` and the empty string unchanged; it is
idempotent on every code whose normalization is not itself one of the
alias keys (full names / three-letter codes) of `GEMINI_LANG_CODES`
(not in general, see the counterexample); and the Gemini server accepts
arbitrary BCP-47 regional variants of the five supported languages,
since their normalization lands back on the bare two-letter code. -/
theorem C10_normalize_language_code :
    (∀ code : List Char, ('-' ∈ code ∨ '_' ∈ code) →
        normalize_language_code code = pyLower (primarySubtag code)) ∧
    normalize_language_code (chars "auto") = chars "auto" ∧
    normalize_language_code [] = [] ∧
    (∀ code : List Char, normalize_language_code code ∉ aliasCodes →
        normalize_language_code (normalize_language_code code) =
          normalize_language_code code) ∧
    (∀ lang ∈ supportedLanguages, ∀ suffix : List Char,
        normalize_language_code (lang ++ '-' :: suffix) = lang) :=
  ⟨normalize_sep, by decide, rfl, normalize_code_idem, normalize_supported_region⟩

/-- Witness for C10 at concrete inputs: `"es-ES"` has a separator and
normalizes to its lowercased primary subtag `"es"`; `"de-AT"` is accepted
as a regional variant of the supported `"de"`; `"es-ES"` normalizes
idempotently. -/
theorem C10_witness :
    (('-' ∈ chars "es-ES" ∨ '_' ∈ chars "es-ES") ∧
      normalize_language_code (chars "es-ES") =
        pyLower (primarySubtag (chars "es-ES"))) ∧
    (chars "de" ∈ supportedLanguages ∧
      normalize_language_code (chars "de" ++ '-' :: chars "AT") = chars "de") ∧
    (normalize_language_code (chars "es-ES") ∉ aliasCodes ∧
      normalize_language_code (normalize_language_code (chars "es-ES")) =
        normalize_language_code (chars "es-ES")) :=
  ⟨⟨Or.inl (by decide), C10_normalize_language_code.1 _ (Or.inl (by decide))⟩,
   ⟨by decide, C10_normalize_language_code.2.2.2.2 _ (by decide) _⟩,
   ⟨by decide, C10_normalize_language_code.2.2.2.1 _ (by decide)⟩⟩

/-! ## Gemini session state and relay operations (gemini_server.py)

The per-client `ClientSession` dataclass (lines 150–177) is embedded as
`GSession`.  `asyncio.Task` handles, the WebSocket and the live Gemini
session object are modelled as `Bool` presence flags; the wall-clock
fields (`created_at`, `last_chunk_time`) and the never-read
`pending_audio` / `last_detected_lang` diagnostics are omitted as no
claim or control flow depends on them.  The `asyncio.Queue` is the
`audio_queue` list (`None` ↔ `Option.none`); `put_nowait` appends at the
back and the send loop consumes from the front, matching FIFO queue
semantics. -/

/-- One entry of the outbound audio queue: a raw audio chunk, or the
`None` poison pill enqueued by `close_streaming_session`. -/
inductive QItem where
  | poison : QItem
  | chunk (data : List ℕ) : QItem
  deriving DecidableEq, Repr

/-- Embedding of the Gemini server's `ClientSession` dataclass. -/
structure GSession where
  source_lang : List Char := chars "auto"
  target_lang : List Char := chars "it"
  audio_buffer : List ℕ := []
  streaming_enabled : Bool := false
  streaming_ready : Bool := false
  gemini_session : Bool := false
  session_task : Bool := false
  audio_queue : Option (List QItem) := none
  websocket : Bool := true
  is_closing : Bool := false
  in_model_turn : Bool := false
  chunks_received : ℕ := 0
  chunks_sent : ℕ := 0
  turn_active : Bool := false
  waiting_for_turn_complete : Bool := false
  deriving DecidableEq, Repr

/-- The freshly-created session of `websocket_translate` (lines 950–956):
dataclass defaults with the configured default language pair. -/
def gSessionInit : GSession := {}

/-- Embedding of one run of the body of `_send_loop` (lines 525–569) over
the given queue contents: for each dequeued item, exit on the poison pill
or on `is_closing`, drop the chunk when `waiting_for_turn_complete` is set
or `turn_active` is cleared, and otherwise forward it to the Gemini
channel (`send_realtime_input`) and increment `chunks_sent`.  The returned
list collects the forwarded chunks in forwarding order.  Timeout wake-ups
(empty queue) only re-check `is_closing` and are represented by list
exhaustion; the turn flags are read at each dequeue exactly as the
coroutine reads them. -/
def sendLoopRun (s : GSession) : List QItem → GSession × List (List ℕ)
  | [] => (s, [])
  | item :: rest =>
    if s.is_closing then (s, [])
    else
      match item with
      | QItem.poison => (s, [])
      | QItem.chunk d =>
        if s.waiting_for_turn_complete then sendLoopRun s rest
        else if s.turn_active = false then sendLoopRun s rest
        else
          let r := sendLoopRun { s with chunks_sent := s.chunks_sent + 1 } rest
          (r.1, d :: r.2)

/-- Embedding of `send_audio_chunk` (lines 580–594): enqueue the chunk and
bump `chunks_received` when a queue exists and the session is not closing
(the `asyncio.Queue()` used here is unbounded, so `QueueFull` cannot
occur and `put_nowait` always appends). -/
def send_audio_chunk (s : GSession) (data : List ℕ) : GSession :=
  if s.audio_queue.isSome ∧ s.is_closing = false then
    { s with audio_queue := s.audio_queue.map (fun q => q ++ [QItem.chunk data]),
             chunks_received := s.chunks_received + 1 }
  else s

/-- Embedding of `send_activity_start` (lines 610–640); `sendOk` is true
when the network send to Gemini does not raise. -/
def send_activity_start (s : GSession) (sendOk : Bool) : GSession :=
  if s.gemini_session ∧ s.streaming_ready ∧ s.is_closing = false then
    let s1 := { s with turn_active := true, chunks_sent := 0 }
    if sendOk then s1 else { s1 with turn_active := false }
  else s

/-- Embedding of `send_activity_end` (lines 642–678); `sendOk` is true
when the network send to Gemini does not raise. -/
def send_activity_end (s : GSession) (sendOk : Bool) : GSession :=
  if s.gemini_session ∧ s.streaming_ready ∧ s.is_closing = false then
    let s1 := { s with turn_active := false, waiting_for_turn_complete := true }
    if sendOk then s1
    else { s1 with turn_active := false, waiting_for_turn_complete := false }
  else s

/-- Messages the server sends back over the client WebSocket (the subset
produced by the embedded handlers; payload fields beyond those the claims
inspect are kept, logging is not). -/
inductive ClientMsg where
  | sourceText (t : List Char)
  | modelTurnStarted
  | modelText (t : List Char)
  | audioOut (samples : List ℤ)
  | translatedText (t : List Char)
  | turnCompleteMsg
  | errorMsg (code : List Char)
  | configuredMsg (src tgt : List Char)
  | streamingSessionReady (src tgt : List Char)
  | streamingEnabledMsg (enabled : Bool)
  | clearedMsg
  | speechStartedMsg
  | speechStoppedMsg
  | translationStartedMute
  | translationResult (source_text translated_text : List Char)
  | audioBytesOut (samples : List ℤ)
  | unmuteInput
  deriving DecidableEq, Repr

/-- One part of a Gemini `model_turn`: a text part or an inline audio part
(audio carried as PCM16 samples at 24 kHz; the `base64`-string variant of
the payload differs only by decoding and is represented by the same
constructor). -/
inductive GPart where
  | textPart (t : List Char)
  | audioPart (data : List ℤ)
  deriving DecidableEq, Repr

/-- The fields of a Gemini `server_content` event that `_receive_loop`
inspects (absent attribute ↔ `none` / `false`). -/
structure GeminiContent where
  input_transcription : Option (List Char) := none
  model_turn : Option (List GPart) := none
  output_transcription : Option (List Char) := none
  turn_complete : Bool := false
  deriving DecidableEq, Repr

/-- Embedding of the per-response body of `_receive_loop`
(gemini_server.py lines 700–811), in source order: forward a non-empty
input transcription, open the model turn (once) and forward its text and
audio parts (audio resampled 24 kHz → 16 kHz), forward a non-empty output
transcription, and on `turn_complete` clear `in_model_turn`,
`waiting_for_turn_complete` and `turn_active` and emit `turn_complete` to
the client. -/
def geminiHandleContent (s : GSession) (c : GeminiContent) :
    GSession × List ClientMsg :=
  let msgs1 :=
    match c.input_transcription with
    | some t => if t ≠ [] then [ClientMsg.sourceText t] else []
    | none => []
  let step2 : GSession × List ClientMsg :=
    match c.model_turn with
    | some parts =>
      let started : GSession × List ClientMsg :=
        if s.in_model_turn = false then
          ({ s with in_model_turn := true }, [ClientMsg.modelTurnStarted])
        else (s, [])
      let partMsgs := parts.flatMap (fun p =>
        match p with
        | GPart.textPart t => if t ≠ [] then [ClientMsg.modelText t] else []
        | GPart.audioPart data =>
            [ClientMsg.audioOut (resample_audio data 24000 16000)])
      (started.1, started.2 ++ partMsgs)
    | none => (s, [])
  let msgs3 :=
    match c.output_transcription with
    | some t => if t ≠ [] then [ClientMsg.translatedText t] else []
    | none => []
  let step4 : GSession × List ClientMsg :=
    if c.turn_complete then
      ({ step2.1 with in_model_turn := false, waiting_for_turn_complete := false,
                      turn_active := false }, [ClientMsg.turnCompleteMsg])
    else (step2.1, [])
  (step4.1, msgs1 ++ step2.2 ++ msgs3 ++ step4.2)

/-- Embedding of the receive loop's per-response guards (lines 693–699):
a response is handled only when the session is not closing and a client
WebSocket is attached; otherwise it is skipped without touching the
session. -/
def geminiReceiveStep (s : GSession) (c : GeminiContent) :
    GSession × List ClientMsg :=
  if s.is_closing then (s, [])
  else if s.websocket = false then (s, [])
  else geminiHandleContent s c

/-- The externally observable release actions of the two teardown
routines: what gets cancelled or closed, in order. -/
inductive TeardownAct where
  | gPoisonPill
  | gCancelSessionTask
  | oCancelPeriodicTask
  | oCancelListenerTask
  | oCloseWs
  deriving DecidableEq, Repr

/-- Embedding of `close_streaming_session` (gemini_server.py lines
838–861): set `is_closing`, clear `streaming_ready` and `in_model_turn`,
enqueue the `None` poison pill when a queue exists, cancel and forget the
session task when present, and finally drop the queue.  The second
component records the release actions performed. -/
def close_streaming_session (s : GSession) : GSession × List TeardownAct :=
  let s1 := { s with is_closing := true, streaming_ready := false,
                     in_model_turn := false }
  let step2 : GSession × List TeardownAct :=
    match s1.audio_queue with
    | some q => ({ s1 with audio_queue := some (q ++ [QItem.poison]) },
        [TeardownAct.gPoisonPill])
    | none => (s1, [])
  let step3 : GSession × List TeardownAct :=
    if step2.1.session_task then
      ({ step2.1 with session_task := false }, [TeardownAct.gCancelSessionTask])
    else (step2.1, [])
  ({ step3.1 with audio_queue := none }, step2.2 ++ step3.2)

/-- Embedding of `create_streaming_session` plus the start of
`_run_streaming_session` (gemini_server.py lines 395–422, 478–491):
fresh unbounded queue, flags reset, session task started; `connectOk`
abstracts whether the Gemini connection succeeds within the 2-second
readiness poll. -/
def create_streaming_session (s : GSession) (connectOk : Bool) : GSession :=
  let s1 := { s with audio_queue := some [], streaming_ready := false,
                     in_model_turn := false, session_task := true }
  if connectOk then { s1 with streaming_ready := true, gemini_session := true }
  else s1

/-- Embedding of the `configure` branch of the Gemini server's
`handle_json_message` (lines 1031–1077): normalize the requested codes
(falling back to the session's current codes when a field is absent),
reject with `INVALID_LANGUAGE` when the normalized source is neither
`"auto"` nor supported or the normalized target is unsupported (leaving
the session untouched), otherwise store the codes, acknowledge with
`configured`, and — when a streaming session is live — close it, clear
`is_closing` and recreate it (`connectOk` abstracts the reconnection
outcome).  The third component records teardown actions. -/
def geminiConfigure (s : GSession) (srcIn tgtIn : Option (List Char))
    (connectOk : Bool) : GSession × List ClientMsg × List TeardownAct :=
  let new_source := normalize_language_code (srcIn.getD s.source_lang)
  let new_target := normalize_language_code (tgtIn.getD s.target_lang)
  if new_source ≠ chars "auto" ∧ new_source ∉ supportedLanguages then
    (s, [ClientMsg.errorMsg (chars "INVALID_LANGUAGE")], [])
  else if new_target ∉ supportedLanguages then
    (s, [ClientMsg.errorMsg (chars "INVALID_LANGUAGE")], [])
  else
    let s1 := { s with source_lang := new_source, target_lang := new_target }
    let ack := [ClientMsg.configuredMsg new_source new_target]
    if s1.streaming_enabled ∧ s1.streaming_ready then
      let closed := close_streaming_session s1
      let s2 := { closed.1 with is_closing := false }
      let s3 := create_streaming_session s2 connectOk
      (s3,
       ack ++ (if connectOk then
         [ClientMsg.streamingSessionReady new_source new_target] else []),
       closed.2)
    else (s1, ack, [])

/-- Embedding of the `set_streaming` branch of `handle_json_message`
(lines 1079–1118).  `enabled` is the requested mode, `connectOk` the
outcome of session creation on enable.  On disable, the streaming session
is closed and `is_closing` is reset to `false` (lines 1102–1112). -/
def geminiSetStreaming (s : GSession) (enabled : Bool) (connectOk : Bool) :
    GSession × List ClientMsg × List TeardownAct :=
  if enabled ∧ s.streaming_enabled = false then
    let s1 := { s with streaming_enabled := true }
    let s2 := create_streaming_session s1 connectOk
    if connectOk then (s2, [ClientMsg.streamingEnabledMsg true], [])
    else ({ s2 with streaming_enabled := false },
      [ClientMsg.errorMsg (chars "STREAMING_ERROR")], [])
  else if enabled = false ∧ s.streaming_enabled then
    let closed := close_streaming_session s
    ({ closed.1 with streaming_enabled := false, is_closing := false },
     [ClientMsg.streamingEnabledMsg false], closed.2)
  else (s, [ClientMsg.streamingEnabledMsg s.streaming_enabled], [])

/-- Outcome of the `translate` branch: the error reply, or the buffered
audio handed to `process_audio` (the one-shot Gemini call). -/
inductive TranslateOutcome where
  | errorReply (code : List Char)
  | processed (audio : List ℕ)
  deriving DecidableEq, Repr

/-- Embedding of the `translate` branch of `handle_json_message` (lines
1120–1137): buffers shorter than 1600 **bytes** are rejected with
`AUDIO_TOO_SHORT` and cleared; otherwise the whole buffer is sent to
`process_audio` and then cleared.  (The source comment and the error
message both say the minimum is ~100 ms at 16 kHz, which at 2 bytes per
sample would be 3200 bytes; the code compares against 1600.) -/
def handle_translate (s : GSession) : GSession × TranslateOutcome :=
  if s.audio_buffer.length < 1600 then
    ({ s with audio_buffer := [] },
     TranslateOutcome.errorReply (chars "AUDIO_TOO_SHORT"))
  else
    ({ s with audio_buffer := [] }, TranslateOutcome.processed s.audio_buffer)

/-! ## OpenAI session state and event listener (openai_server.py) -/

/-- The two translation modes (openai_server.py lines 59–60). -/
inductive TMode where
  | vad
  | periodic
  deriving DecidableEq, Repr

/-- Embedding of the OpenAI server's `ClientSession` dataclass (lines
144–170); task/WebSocket handles are presence flags, `created_at`,
`last_commit_time` and the log-only `total_audio_sent` counter are
omitted. -/
structure OSession where
  source_lang : List Char := chars "auto"
  target_lang : List Char := chars "it"
  openai_ws : Bool := false
  client_ws : Bool := true
  is_speaking : Bool := false
  current_response_id : Option (List Char) := none
  source_text : List Char := []
  translated_text : List Char := []
  openai_listener_task : Bool := false
  periodic_task : Bool := false
  active : Bool := true
  stream_audio : Bool := false
  translation_mode : TMode := TMode.vad
  audio_received_since_commit : Bool := false
  is_responding : Bool := false
  pending_item_ids : List (List Char) := []
  deriving DecidableEq, Repr

/-- The OpenAI Realtime events dispatched by `openai_event_listener`
(payload reduced to the fields the listener reads; audio deltas carried
as 24 kHz PCM16 samples after base64 decoding). -/
inductive OEvent where
  | speechStarted
  | speechStopped
  | itemCreated (id : Option (List Char))
  | responseCreated (id : List Char)
  | audioDelta (data : List ℤ)
  | transcriptDelta (d : List Char)
  | inputTranscriptCompleted (t : List Char)
  | responseDone (status : List Char)
  | errorEvt (code : List Char)
  deriving DecidableEq, Repr

/-- Messages the listener sends upstream to the OpenAI WebSocket during
periodic-mode cleanup. -/
inductive OProviderMsg where
  | itemDelete (id : List Char)
  | bufferClear
  deriving DecidableEq, Repr

/-- Result of handling one OpenAI event: updated session, updated local
`audio_buffer` of the listener, messages to the client, messages to the
provider. -/
structure OStepResult where
  session : OSession
  buffer : List ℤ
  clientOut : List ClientMsg
  providerOut : List OProviderMsg
  deriving DecidableEq, Repr

/-- Embedding of the event dispatch in `openai_event_listener`
(openai_server.py lines 440–621), branch by branch in source order.  The
local `audio_buffer` accumulates resampled response audio; it is cleared
on `response.created`, not on `response.done`. -/
def openaiHandleEvent (s : OSession) (buf : List ℤ) : OEvent → OStepResult
  | OEvent.speechStarted =>
      ⟨{ s with is_speaking := true }, buf,
       if s.client_ws then [ClientMsg.speechStartedMsg] else [], []⟩
  | OEvent.speechStopped =>
      ⟨{ s with is_speaking := false }, buf,
       if s.client_ws then [ClientMsg.speechStoppedMsg] else [], []⟩
  | OEvent.itemCreated id =>
      match id with
      | some i =>
          if s.translation_mode = TMode.periodic then
            ⟨{ s with pending_item_ids := s.pending_item_ids ++ [i] }, buf, [], []⟩
          else ⟨s, buf, [], []⟩
      | none => ⟨s, buf, [], []⟩
  | OEvent.responseCreated id =>
      ⟨{ s with current_response_id := some id, source_text := [],
                translated_text := [], is_responding := true }, [],
       if s.client_ws then [ClientMsg.translationStartedMute] else [], []⟩
  | OEvent.audioDelta data =>
      if data = [] then ⟨s, buf, [], []⟩
      else
        let resampled := resample_audio data 24000 16000
        ⟨s, buf ++ resampled,
         if s.stream_audio ∧ s.client_ws then [ClientMsg.audioOut resampled]
         else [], []⟩
  | OEvent.transcriptDelta d =>
      ⟨{ s with translated_text := s.translated_text ++ d }, buf, [], []⟩
  | OEvent.inputTranscriptCompleted t =>
      ⟨{ s with source_text := t }, buf, [], []⟩
  | OEvent.responseDone _status =>
      let s1 := { s with is_responding := false }
      let clientMsgs :=
        if s1.client_ws then
          [ClientMsg.translationResult s1.source_text s1.translated_text] ++
          (if s1.stream_audio = false ∧ buf ≠ [] then
            [ClientMsg.audioBytesOut buf] else []) ++
          [ClientMsg.unmuteInput]
        else []
      if s1.translation_mode = TMode.periodic ∧ s1.openai_ws then
        ⟨{ s1 with pending_item_ids := [] }, buf, clientMsgs,
         s1.pending_item_ids.map OProviderMsg.itemDelete ++
           [OProviderMsg.bufferClear]⟩
      else ⟨s1, buf, clientMsgs, []⟩
  | OEvent.errorEvt code =>
      ⟨s, buf, if s.client_ws then [ClientMsg.errorMsg code] else [], []⟩

/-- Embedding of `close_openai_session` (openai_server.py lines 388–407)
with `stop_periodic_task` (lines 378–386) inlined: clear `active`, cancel
and forget the periodic task, cancel the listener task **without
forgetting its handle** (the source never sets `openai_listener_task`
to `None`), and close and forget the OpenAI WebSocket.  The second
component records the release actions performed. -/
def close_openai_session (s : OSession) : OSession × List TeardownAct :=
  let s1 := { s with active := false }
  let step2 : OSession × List TeardownAct :=
    if s1.periodic_task then
      ({ s1 with periodic_task := false }, [TeardownAct.oCancelPeriodicTask])
    else (s1, [])
  let acts3 : List TeardownAct :=
    if step2.1.openai_listener_task then [TeardownAct.oCancelListenerTask]
    else []
  let step4 : OSession × List TeardownAct :=
    if step2.1.openai_ws then
      ({ step2.1 with openai_ws := false }, [TeardownAct.oCloseWs])
    else (step2.1, [])
  (step4.1, step2.2 ++ acts3 ++ step4.2)

/-- Embedding of the `configure` branch of the OpenAI server's
`handle_json_message` (openai_server.py lines 812–846): the literal codes
(no normalization) are validated against `SUPPORTED_LANGUAGES`; on
failure an `INVALID_LANGUAGE` error is sent and the session is left
untouched; on success the codes are stored, the OpenAI session is
reconfigured in place (a `session.update`, no teardown) and `configured`
is acknowledged. -/
def openaiConfigure (s : OSession) (srcIn tgtIn : Option (List Char)) :
    OSession × List ClientMsg :=
  let new_source := srcIn.getD s.source_lang
  let new_target := tgtIn.getD s.target_lang
  if new_source ≠ chars "auto" ∧ new_source ∉ supportedLanguages then
    (s, [ClientMsg.errorMsg (chars "INVALID_LANGUAGE")])
  else if new_target ∉ supportedLanguages then
    (s, [ClientMsg.errorMsg (chars "INVALID_LANGUAGE")])
  else
    ({ s with source_lang := new_source, target_lang := new_target },
     [ClientMsg.configuredMsg new_source new_target])

/-! ## Claims C1 and C3: send-loop gating and FIFO order -/

/-- C1: under the Gemini streaming session's manual-VAD configuration, in
every session state whose turn is closed or awaiting the provider's
turn-complete (`waiting_for_turn_complete = true` or `turn_active =
false`), the send loop forwards no dequeued audio chunk to the provider
channel: every dequeued chunk is dropped and the session state is left
unchanged. -/
theorem C1_send_loop_drops (s : GSession) (q : List QItem)
    (h : s.waiting_for_turn_complete = true ∨ s.turn_active = false) :
    (sendLoopRun s q).2 = [] ∧ (sendLoopRun s q).1 = s := by
  induction q with
  | nil => exact ⟨rfl, rfl⟩
  | cons item rest ih =>
      simp only [sendLoopRun]
      by_cases hc : s.is_closing
      · simp [hc]
      · cases item with
        | poison => simp [hc]
        | chunk d =>
            rcases h with hw | ht
            · simp [hc, hw, ih]
            · by_cases hw : s.waiting_for_turn_complete
              · simp [hc, hw, ih]
              · simp [hc, hw, ht, ih]

/-- Witness for C1: with `waiting_for_turn_complete` set, two queued
chunks are both dropped and nothing reaches the provider. -/
theorem C1_witness :
    (sendLoopRun { gSessionInit with waiting_for_turn_complete := true }
        [QItem.chunk [1], QItem.chunk [2]]).2 = [] ∧
    (sendLoopRun { gSessionInit with waiting_for_turn_complete := true }
        [QItem.chunk [1], QItem.chunk [2]]).1 =
      { gSessionInit with waiting_for_turn_complete := true } :=
  C1_send_loop_drops _ _ (Or.inl rfl)

theorem send_audio_chunk_queue (data : List ℕ) (s : GSession) (q : List QItem)
    (hq : s.audio_queue = some q) (hc : s.is_closing = false) :
    (send_audio_chunk s data).audio_queue = some (q ++ [QItem.chunk data]) ∧
    (send_audio_chunk s data).is_closing = false := by
  unfold send_audio_chunk
  rw [if_pos ⟨by rw [hq]; rfl, hc⟩]
  exact ⟨by rw [hq]; rfl, hc⟩

theorem enqueue_foldl (datas : List (List ℕ)) :
    ∀ (s : GSession) (q : List QItem), s.audio_queue = some q →
      s.is_closing = false →
      (datas.foldl send_audio_chunk s).audio_queue =
        some (q ++ datas.map QItem.chunk) := by
  induction datas with
  | nil => intro s q hq _; simpa using hq
  | cons d ds ih =>
      intro s q hq hc
      rw [List.foldl_cons]
      have h1 := send_audio_chunk_queue d s q hq hc
      rw [ih (send_audio_chunk s d) (q ++ [QItem.chunk d]) h1.1 h1.2]
      simp

theorem sendLoopRun_forwards (datas : List (List ℕ)) :
    ∀ s : GSession, s.is_closing = false → s.turn_active = true →
      s.waiting_for_turn_complete = false →
      (sendLoopRun s (datas.map QItem.chunk)).2 = datas := by
  induction datas with
  | nil => intro s _ _ _; rfl
  | cons d ds ih =>
      intro s hc ht hw
      simp [sendLoopRun, hc, ht, hw]
      exact ih _ rfl rfl rfl

/-- C3: audio chunks admitted through `send_audio_chunk` (the sole
producer) while the turn is active land in the FIFO queue in admission
order, and the send loop (the sole consumer) forwards exactly that
sequence to the provider channel — same order, no reordering, no
duplication. -/
theorem C3_fifo_order (s : GSession) (datas : List (List ℕ))
    (hc : s.is_closing = false) (ht : s.turn_active = true)
    (hw : s.waiting_for_turn_complete = false)
    (hq : s.audio_queue = some []) :
    (datas.foldl send_audio_chunk s).audio_queue =
        some (datas.map QItem.chunk) ∧
    (sendLoopRun s (datas.map QItem.chunk)).2 = datas :=
  ⟨by simpa using enqueue_foldl datas s [] hq hc,
   sendLoopRun_forwards datas s hc ht hw⟩

/-- Witness for C3: three concrete chunks admitted in an active turn are
queued and forwarded in exactly their admission order. -/
theorem C3_witness :
    (([[1], [2], [3]] : List (List ℕ)).foldl send_audio_chunk
        { gSessionInit with turn_active := true, audio_queue := some [] }).audio_queue =
      some [QItem.chunk [1], QItem.chunk [2], QItem.chunk [3]] ∧
    (sendLoopRun { gSessionInit with turn_active := true, audio_queue := some [] }
        [QItem.chunk [1], QItem.chunk [2], QItem.chunk [3]]).2 =
      [[1], [2], [3]] :=
  C3_fifo_order _ [[1], [2], [3]] rfl rfl rfl rfl

/-! ## Claim C2: turn-complete handling -/

/-- C2 counterexample: handling OpenAI `response.done` does **not** clear
the pending-transcript accumulator.  With `translated_text = "ciao"`
accumulated, the session still carries `"ciao"` after the event; the
accumulator is only cleared by the next `response.created`. -/
theorem C2_counterexample :
    (openaiHandleEvent
        { openai_ws := true, source_text := chars "hallo",
          translated_text := chars "ciao", is_responding := true }
        [] (OEvent.responseDone (chars "completed"))).session.translated_text =
      chars "ciao" ∧
    (openaiHandleEvent
        { openai_ws := true, source_text := chars "hallo",
          translated_text := chars "ciao", is_responding := true }
        [] (OEvent.responseDone (chars "completed"))).session.source_text =
      chars "hallo" ∧
    chars "ciao" ≠ ([] : List Char) := by
  decide

/-- C2 (amended): handling a provider turn-complete event always resets
the turn-phase flags — Gemini `turn_complete` clears `in_model_turn`,
`waiting_for_turn_complete` and `turn_active` (for any handled response,
i.e. session not closing and a client WebSocket attached), and OpenAI
`response.done` clears `is_responding` — regardless of how many deltas
preceded it; but the OpenAI transcript accumulator (`source_text`,
`translated_text`) is left unchanged by `response.done` and is instead
cleared when the next `response.created` arrives. -/
theorem C2_turn_complete_resets :
    (∀ (s : GSession) (c : GeminiContent), s.is_closing = false →
        s.websocket = true → c.turn_complete = true →
        (geminiReceiveStep s c).1.in_model_turn = false ∧
        (geminiReceiveStep s c).1.waiting_for_turn_complete = false ∧
        (geminiReceiveStep s c).1.turn_active = false) ∧
    (∀ (s : OSession) (buf : List ℤ) (st : List Char),
        (openaiHandleEvent s buf (OEvent.responseDone st)).session.is_responding
            = false ∧
        (openaiHandleEvent s buf (OEvent.responseDone st)).session.source_text
            = s.source_text ∧
        (openaiHandleEvent s buf
            (OEvent.responseDone st)).session.translated_text
            = s.translated_text) ∧
    (∀ (s : OSession) (buf : List ℤ) (id : List Char),
        (openaiHandleEvent s buf (OEvent.responseCreated id)).session.source_text
            = [] ∧
        (openaiHandleEvent s buf
            (OEvent.responseCreated id)).session.translated_text = [] ∧
        (openaiHandleEvent s buf (OEvent.responseCreated id)).session.is_responding
            = true ∧
        (openaiHandleEvent s buf (OEvent.responseCreated id)).buffer = []) := by
  refine ⟨?_, ?_, ?_⟩
  · intro s c hc hws htc
    simp only [geminiReceiveStep, hc, hws]
    simp only [geminiHandleContent, htc]
    simp
  · intro s buf st
    simp only [openaiHandleEvent]
    split
    · exact ⟨rfl, rfl, rfl⟩
    · exact ⟨rfl, rfl, rfl⟩
  · intro s buf id
    exact ⟨rfl, rfl, rfl, rfl⟩

/-- Witness for C2 at a concrete mid-turn state: a Gemini `turn_complete`
response in a fully active turn ends idle, and an OpenAI `response.done`
clears `is_responding`. -/
theorem C2_witness :
    ((geminiReceiveStep
        { gSessionInit with
            turn_active := true, waiting_for_turn_complete := true,
            in_model_turn := true }
        { turn_complete := true }).1.in_model_turn = false ∧
     (geminiReceiveStep
        { gSessionInit with
            turn_active := true, waiting_for_turn_complete := true,
            in_model_turn := true }
        { turn_complete := true }).1.waiting_for_turn_complete = false ∧
     (geminiReceiveStep
        { gSessionInit with
            turn_active := true, waiting_for_turn_complete := true,
            in_model_turn := true }
        { turn_complete := true }).1.turn_active = false) ∧
    (openaiHandleEvent { openai_ws := true, is_responding := true } []
        (OEvent.responseDone (chars "completed"))).session.is_responding =
      false :=
  ⟨C2_turn_complete_resets.1 _ _ rfl rfl rfl,
   (C2_turn_complete_resets.2.1 _ _ _).1⟩

/-! ## Claims C4 and C5: closing flag and teardown -/

/-- A session with a live, ready streaming Gemini connection. -/
def gStreamingLive : GSession :=
  { gSessionInit with
      streaming_enabled := true, streaming_ready := true,
      gemini_session := true, session_task := true, audio_queue := some [] }

/-- The OpenAI session as created on client connect. -/
def oSessionInit : OSession := {}

theorem create_streaming_session_is_closing (s : GSession) (ok : Bool) :
    (create_streaming_session s ok).is_closing = s.is_closing := by
  unfold create_streaming_session
  split <;> rfl

/-- C4 counterexample: `is_closing` is not monotonic over the session
object's lifetime.  The `set_streaming` disable handler first runs
`close_streaming_session` — which sets `is_closing := true` — and then
resets `is_closing := false` on the very same session object (the
operation literally factors through the closed state, as the middle
conjunct shows), so the flag goes `true → false` while the session stays
alive. -/
theorem C4_counterexample :
    (close_streaming_session gStreamingLive).1.is_closing = true ∧
    geminiSetStreaming gStreamingLive false true =
      ({ (close_streaming_session gStreamingLive).1 with
          streaming_enabled := false, is_closing := false },
       [ClientMsg.streamingEnabledMsg false],
       (close_streaming_session gStreamingLive).2) ∧
    (geminiSetStreaming gStreamingLive false true).1.is_closing = false := by
  decide

/-- C4 (amended): `is_closing` is set by `close_streaming_session` and is
never cleared by the close itself nor by any relay operation (audio
enqueue, send loop, receive handling, manual-VAD activity signals, batch
translate); it is monotonic within each streaming session's lifetime.
It is, however, deliberately reset to `false` after the close completes
by the two session-reuse paths — the `set_streaming` disable handler and
the `configure` handler's streaming-reconnect path — so it is not
monotonic over the whole session object's lifetime. -/
theorem C4_closing_flag :
    (∀ s : GSession, (close_streaming_session s).1.is_closing = true) ∧
    (∀ (s : GSession) (d : List ℕ), s.is_closing = true →
        (send_audio_chunk s d).is_closing = true) ∧
    (∀ (s : GSession) (q : List QItem), s.is_closing = true →
        (sendLoopRun s q).1.is_closing = true) ∧
    (∀ (s : GSession) (c : GeminiContent), s.is_closing = true →
        (geminiReceiveStep s c).1.is_closing = true) ∧
    (∀ (s : GSession) (ok : Bool), s.is_closing = true →
        (send_activity_start s ok).is_closing = true ∧
        (send_activity_end s ok).is_closing = true) ∧
    (∀ s : GSession, (handle_translate s).1.is_closing = s.is_closing) ∧
    (∀ (s : GSession) (ok : Bool), s.streaming_enabled = true →
        (geminiSetStreaming s false ok).1.is_closing = false) ∧
    (∀ (s : GSession) (srcIn tgtIn : Option (List Char)) (ok : Bool),
        s.streaming_enabled = true → s.streaming_ready = true →
        (geminiConfigure s srcIn tgtIn ok).1.is_closing = false ∨
        (geminiConfigure s srcIn tgtIn ok).1 = s) := by
  refine ⟨?_, ?_, ?_, ?_, ?_, ?_, ?_, ?_⟩
  · intro s
    simp only [close_streaming_session]
    split <;> split <;> rfl
  · intro s d h
    unfold send_audio_chunk
    split
    · next hcond => rw [hcond.2] at h; exact absurd h (by decide)
    · exact h
  · intro s q h
    cases q with
    | nil => exact h
    | cons item rest => simp only [sendLoopRun, h]; exact h
  · intro s c h
    simp only [geminiReceiveStep, h]
    exact h
  · intro s ok h
    constructor
    · unfold send_activity_start
      split
      · next hcond => rw [hcond.2.2] at h; exact absurd h (by decide)
      · exact h
    · unfold send_activity_end
      split
      · next hcond => rw [hcond.2.2] at h; exact absurd h (by decide)
      · exact h
  · intro s
    unfold handle_translate
    split <;> rfl
  · intro s ok hs
    unfold geminiSetStreaming
    rw [if_neg (by simp), if_pos ⟨rfl, hs⟩]
  · intro s srcIn tgtIn ok hse hsr
    by_cases h1 : normalize_language_code (srcIn.getD s.source_lang) ≠ chars "auto" ∧
        normalize_language_code (srcIn.getD s.source_lang) ∉ supportedLanguages
    · right
      simp [geminiConfigure, h1]
    · by_cases h2 : normalize_language_code (tgtIn.getD s.target_lang) ∉ supportedLanguages
      · right
        simp [geminiConfigure, h1, h2]
      · left
        simp [geminiConfigure, h1, h2, hse, hsr, create_streaming_session_is_closing]

/-- Witness for C4: the close sets the flag on the live session, and the
disable path ends with it cleared. -/
theorem C4_witness :
    (close_streaming_session gStreamingLive).1.is_closing = true ∧
    gStreamingLive.streaming_enabled = true ∧
    (geminiSetStreaming gStreamingLive false true).1.is_closing = false :=
  ⟨C4_closing_flag.1 gStreamingLive, rfl,
   C4_closing_flag.2.2.2.2.2.2.1 gStreamingLive true rfl⟩

/-- C5 counterexample: the OpenAI close is not free of repeated releases.
The source never clears `openai_listener_task`, so invoking
`close_openai_session` a second time issues a second `cancel()` on the
already-cancelled listener task (a no-op for asyncio, but a repeated
release of a task, which the claim rules out). -/
theorem C5_counterexample :
    (close_openai_session (close_openai_session
        { oSessionInit with
            openai_ws := true, openai_listener_task := true,
            periodic_task := true }).1).2 =
      [TeardownAct.oCancelListenerTask] ∧
    [TeardownAct.oCancelListenerTask] ≠ ([] : List TeardownAct) := by
  decide

/-- C5 (amended): closing is idempotent on the session state for both
servers — the second invocation leaves the state exactly as the first
left it — and the provider channel is never released twice: the Gemini
close performs no release action at all on a second invocation (its
task handle and queue are cleared by the first), and the OpenAI close
never closes the WebSocket or cancels the periodic task a second time.
The one exception, forced by the counterexample, is the OpenAI listener
task, whose handle the source never clears, so the second invocation
re-issues its `cancel()`. -/
theorem C5_close_idempotent :
    (∀ s : GSession,
        close_streaming_session (close_streaming_session s).1 =
          ((close_streaming_session s).1, [])) ∧
    (∀ s : OSession,
        (close_openai_session (close_openai_session s).1).1 =
          (close_openai_session s).1 ∧
        TeardownAct.oCloseWs ∉ (close_openai_session
          (close_openai_session s).1).2 ∧
        TeardownAct.oCancelPeriodicTask ∉ (close_openai_session
          (close_openai_session s).1).2) := by
  constructor
  · intro s
    obtain ⟨sl, tl, ab, se, sr, gs, st, aq, ws, ic, imt, cr, cs, ta, wf⟩ := s
    cases aq <;> cases st <;> rfl
  · intro s
    obtain ⟨sl, tl, ows, cws, isp, cri, stx, ttx, olt, pt, ac, sa, tm, arc,
      ir, pii⟩ := s
    cases pt <;> cases olt <;> cases ows <;>
      exact ⟨rfl, by simp [close_openai_session], by simp [close_openai_session]⟩

/-! ## Claims C7 and C8: batch-mode minimum duration and invalid languages -/

/-- A batch-mode session holding exactly 800 buffered PCM16 samples
(1600 bytes): 50 ms of audio at 16 kHz. -/
def gBatch50ms : GSession :=
  { gSessionInit with audio_buffer := List.replicate 1600 0 }

/-- C7: evaluation of the embedded `translate` handler at the failing
input.  With exactly 1600 buffered bytes (800 samples, 50 ms at 16 kHz),
the strict comparison `len < 1600` is false, so the handler forwards the
50 ms buffer to the provider instead of replying `AUDIO_TOO_SHORT` —
even though the code's own comment and client-facing error message state
a 100 ms minimum (1600 bytes / 32 bytes-per-ms = 50 ms < 100 ms; the
documented minimum corresponds to 3200 bytes). -/
theorem C7_audio_too_short_bug :
    gBatch50ms.audio_buffer.length = 1600 ∧
    handle_translate gBatch50ms =
      ({ gBatch50ms with audio_buffer := [] },
       TranslateOutcome.processed (List.replicate 1600 0)) ∧
    (handle_translate gBatch50ms).2 ≠
      TranslateOutcome.errorReply (chars "AUDIO_TOO_SHORT") ∧
    1600 / 32 = 50 ∧ 50 < 100 := by
  have hab : gBatch50ms.audio_buffer = List.replicate 1600 0 := rfl
  have hlen : gBatch50ms.audio_buffer.length = 1600 := by
    rw [hab, List.length_replicate]
  have hmain : handle_translate gBatch50ms =
      ({ gBatch50ms with audio_buffer := [] },
       TranslateOutcome.processed (List.replicate 1600 0)) := by
    unfold handle_translate
    rw [if_neg (by rw [hlen]; exact lt_irrefl 1600), hab]
  refine ⟨hlen, hmain, ?_, by norm_num, by norm_num⟩
  rw [hmain]
  exact fun h => TranslateOutcome.noConfusion h

/-- C8 counterexample: a `configure` whose source code `"es-ES"` lies
outside the supported set (and is not `"auto"`) is *accepted* by the
Gemini server — normalization maps it to `"es"` first — so the server
replies `configured`, not `INVALID_LANGUAGE` as the claim requires. -/
theorem C8_counterexample :
    chars "es-ES" ∉ supportedLanguages ∧
    chars "es-ES" ≠ chars "auto" ∧
    (geminiConfigure gSessionInit (some (chars "es-ES"))
        (some (chars "it")) true).2.1 =
      [ClientMsg.configuredMsg (chars "es") (chars "it")] ∧
    (geminiConfigure gSessionInit (some (chars "es-ES"))
        (some (chars "it")) true).2.1 ≠
      [ClientMsg.errorMsg (chars "INVALID_LANGUAGE")] := by
  decide

/-- C8 (amended): the Gemini server replies `INVALID_LANGUAGE` exactly
when the *normalized* source (not `"auto"`) or normalized target falls
outside the supported set, while the OpenAI server checks the literal
codes; in every such error case the session state is unchanged (languages
keep their previous values), nothing is torn down, and the session
continues. -/
theorem C8_invalid_language :
    (∀ (s : GSession) (srcIn tgtIn : Option (List Char)) (ok : Bool),
        normalize_language_code (srcIn.getD s.source_lang) ≠ chars "auto" →
        normalize_language_code (srcIn.getD s.source_lang) ∉ supportedLanguages →
        geminiConfigure s srcIn tgtIn ok =
          (s, [ClientMsg.errorMsg (chars "INVALID_LANGUAGE")], [])) ∧
    (∀ (s : GSession) (srcIn tgtIn : Option (List Char)) (ok : Bool),
        ¬(normalize_language_code (srcIn.getD s.source_lang) ≠ chars "auto" ∧
          normalize_language_code (srcIn.getD s.source_lang) ∉
            supportedLanguages) →
        normalize_language_code (tgtIn.getD s.target_lang) ∉ supportedLanguages →
        geminiConfigure s srcIn tgtIn ok =
          (s, [ClientMsg.errorMsg (chars "INVALID_LANGUAGE")], [])) ∧
    (∀ (s : OSession) (srcIn tgtIn : Option (List Char)),
        srcIn.getD s.source_lang ≠ chars "auto" →
        srcIn.getD s.source_lang ∉ supportedLanguages →
        openaiConfigure s srcIn tgtIn =
          (s, [ClientMsg.errorMsg (chars "INVALID_LANGUAGE")])) ∧
    (∀ (s : OSession) (srcIn tgtIn : Option (List Char)),
        ¬(srcIn.getD s.source_lang ≠ chars "auto" ∧
          srcIn.getD s.source_lang ∉ supportedLanguages) →
        tgtIn.getD s.target_lang ∉ supportedLanguages →
        openaiConfigure s srcIn tgtIn =
          (s, [ClientMsg.errorMsg (chars "INVALID_LANGUAGE")])) := by
  refine ⟨?_, ?_, ?_, ?_⟩
  · intro s srcIn tgtIn ok h1 h2
    simp [geminiConfigure, h1, h2]
  · intro s srcIn tgtIn ok h1 h2
    simp [geminiConfigure, h1, h2]
  · intro s srcIn tgtIn h1 h2
    simp [openaiConfigure, h1, h2]
  · intro s srcIn tgtIn h1 h2
    simp [openaiConfigure, h1, h2]

/-- Witness for C8: configuring the unsupported source `"xx"` (Gemini)
and `"pt"` (OpenAI) yields the error reply with the session untouched. -/
theorem C8_witness :
    geminiConfigure gSessionInit (some (chars "xx")) none true =
      (gSessionInit, [ClientMsg.errorMsg (chars "INVALID_LANGUAGE")], []) ∧
    openaiConfigure oSessionInit (some (chars "pt")) none =
      (oSessionInit, [ClientMsg.errorMsg (chars "INVALID_LANGUAGE")]) :=
  ⟨C8_invalid_language.1 gSessionInit (some (chars "xx")) none true
      (by decide) (by decide),
   C8_invalid_language.2.2.1 oSessionInit (some (chars "pt")) none
      (by decide) (by decide)⟩
